import Mathlib

/-!
Shallow embedding of the PricePromoGenix metrics-and-recommendation pipeline
(`src/PricePromoGenix/utils.py`).

Numeric cells are modelled as rationals (`ℚ`); the pandas DataFrame is a list
of rows together with the list of column names present in the input.  The
external collaborators (the `holidays` calendar package, `datetime.strptime`,
the OpenAI HTTP call, and the three string parsers `json.loads`,
`ast.literal_eval`, `float`) are modelled as oracles: their *outcomes* are
data supplied to the embedded functions, while all the repository's own
control flow and arithmetic is embedded directly.
-/

namespace PricePromoGenix

/-- A Python value held by a history column cell after `parse_history` ran:
either a list of numbers or a bare number.  `json.loads` (and
`ast.literal_eval`) can return either, and `parse_history` (utils.py lines
90-97) returns whatever the string decoder produced, without wrapping. -/
inductive PyVal where
  | list (l : List ℚ)
  | num (v : ℚ)
deriving DecidableEq, Repr

/-- Content of a raw `Price_History` / `Sales_History` cell.  String cells are
modelled by the outcome of the three parsing stages attempted by
`parse_history` (utils.py lines 90-97): `strJson v` means `json.loads`
succeeds with value `v`; `strLit v` means `json.loads` raises and
`ast.literal_eval` succeeds with `v`; `strComma l` means both raise and the
comma-split `float` parse succeeds with `l`; `strFail` means all three stages
raise (the final `float(x.strip())` call raises `ValueError`, which no
handler in `parse_history` catches). -/
inductive HistCell where
  | null
  | pyList (l : List ℚ)
  | pyNum (v : ℚ)
  | strJson (v : PyVal)
  | strLit (v : PyVal)
  | strComma (l : List ℚ)
  | strFail
deriving DecidableEq, Repr

/-- Errors with which `process_data` can terminate.  `missingColumns` models
the `ValueError` raised at utils.py line 30 (carrying the collected list of
absent required columns); `historyParse` models the uncaught `ValueError`
escaping from `parse_history`'s comma-split stage (line 97); `locationAttr`
models the `AttributeError` raised at line 62 when the `Location` column is
absent (`df.get('Location', 'RU')` then returns the plain string `'RU'`,
which has no `.apply`).  All of them are re-raised unchanged by the
`except` block at lines 72-74. -/
inductive PipeErr where
  | missingColumns (cols : List String)
  | historyParse
  | locationAttr
deriving DecidableEq, Repr

/-- Outcome of one OpenAI HTTP call made by `get_ai_recommendation` (utils.py
lines 200-222): the request succeeded and the body carried
`choices[0].message.content`, or `requests` raised a `RequestException`
(network error, non-success status via `raise_for_status`, timeout,
malformed JSON body), or the decoded body had no usable `choices`, or some
other exception was raised. -/
inductive LLMResult where
  | success (content : String)
  | requestError
  | badFormat
  | unexpectedError
deriving DecidableEq, Repr

/-- An `LLMResult` other than `success`. -/
def LLMResult.isFailure : LLMResult → Bool
  | .success _ => false
  | _ => true

/-- One row of the input DataFrame.  Cells of optional columns are `Option`s
(`none` models a NaN cell); when a whole column is absent from the upload the
corresponding `Table.cols` entry is missing and the per-row field is ignored
(see `phCell`, `cpCell`, ...). -/
structure Row where
  Product : String
  Current_Price : ℚ
  Cost : ℚ
  Current_Stock : ℚ
  Sales_30d : ℚ
  Competitor_Price : Option ℚ
  Price_History : HistCell
  Sales_History : HistCell
  Past_Period_Sales : Option ℚ
  Location : Option String
deriving DecidableEq, Repr

/-- The input DataFrame: the list of column names actually present in the
upload plus the rows. -/
structure Table where
  cols : List String
  rows : List Row
deriving DecidableEq, Repr

/-- One row of the enriched DataFrame returned by `process_data`: the input
columns plus every derived column the pipeline writes.  `Competitor_Gap` and
`Seasonal_Demand_Factor` are `PyVal`s because the lambdas at utils.py lines
48 and 57 capture the whole `df['Current_Price']` / `df['Sales_30d']`
columns, so a single cell can hold a whole series rather than a scalar. -/
structure ERow where
  Product : String
  Current_Price : ℚ
  Cost : ℚ
  Current_Stock : ℚ
  Sales_30d : ℚ
  Competitor_Price : Option ℚ
  Location : Option String
  Price_History : PyVal
  Sales_History : PyVal
  Sales_Velocity : ℚ
  Stock_Runway : ℚ
  Discount_Margin : ℚ
  Competitor_Gap : PyVal
  PS_units : ℚ
  PS_revenue : ℚ
  Seasonal_Demand_Factor : PyVal
  Is_Holiday_Period : Bool
  Recommendation : String
deriving DecidableEq, Repr

/-- The enriched DataFrame. -/
structure ETable where
  rows : List ERow
deriving DecidableEq, Repr

/-- Environment of one pipeline run: the oracles for the external
collaborators.  `holiday_oracle c d` tells whether absolute day `d` is a
listed public holiday of country calendar `c` (the `holidays` package,
including its lazy expansion to the looked-up year); `ref_day` is the parsed
form of the fixed reference date string `"2025-03-23"` (line 61);
`api_key_present` is whether `os.getenv('OPENAI_API_KEY')` is set (line 65);
`llm_outcome i` is the outcome of the OpenAI call made for row `i`. -/
structure Env where
  holiday_oracle : String → Int → Bool
  ref_day : Int
  api_key_present : Bool
  llm_outcome : Nat → LLMResult

/-- Embedding of `parse_history` (utils.py lines 76-98).  `pd.isna` input
yields `[]`; a native list is returned unchanged; a string goes through the
three decode stages, the value of the first successful stage being returned
without any reshaping; if all three stages raise, the final `ValueError`
propagates (no handler); any other scalar is wrapped as `[value]`. -/
def parse_history : HistCell → Except PipeErr PyVal
  | .null => .ok (.list [])
  | .pyList l => .ok (.list l)
  | .strJson v => .ok v
  | .strLit v => .ok v
  | .strComma l => .ok (.list l)
  | .strFail => .error .historyParse
  | .pyNum v => .ok (.list [v])

/-- Total companion of `parse_history`: the value it returns whenever it does
not raise (the `strFail` case is dead in this function and mapped to `[]`). -/
def parseValTotal : HistCell → PyVal
  | .null => .list []
  | .pyList l => .list l
  | .strJson v => v
  | .strLit v => v
  | .strComma l => .list l
  | .strFail => .list []
  | .pyNum v => .list [v]

/-- Python truthiness of a parsed history value, as tested by the fallback
lambdas at utils.py lines 34 and 37 (`row['Price_History'] if
row['Price_History'] else [...]`): an empty list and the number `0` are
falsy, everything else truthy. -/
def pyTruthy : PyVal → Bool
  | .list l => !l.isEmpty
  | .num v => decide (v ≠ 0)

/-- The fallback lambdas at utils.py lines 34 and 37: keep the parsed value
when truthy, otherwise replace it by the one-element list holding the row's
current price (resp. current sales). -/
def history_or_default (p : PyVal) (dflt : ℚ) : PyVal :=
  if pyTruthy p then p else .list [dflt]

/-- Metric selector of `calculate_price_sensitivity`. -/
inductive MetricType where
  | units
  | revenue
deriving DecidableEq, Repr

/-- Embedding of `calculate_price_sensitivity` (utils.py lines 100-132).
The whole body runs inside `try/except` returning `0` on any exception; in
particular a history that is a bare number (not a list) makes `len(...)`
raise `TypeError`, so the result is `0`.  For list histories: fewer than two
points on either side gives `0`; `price_history[-1]` / `[-2]` are the last
and second-to-last elements; a zero price difference gives `0`; otherwise
the slope (units) or the revenue slope. -/
def calculate_price_sensitivity (mt : MetricType) (ph sh : PyVal) : ℚ :=
  match ph, sh with
  | .list price_history, .list sales_history =>
    if price_history.length < 2 ∨ sales_history.length < 2 then 0
    else
      let last_price := price_history.getLastD 0
      let prev_price := price_history.dropLast.getLastD 0
      let last_sales := sales_history.getLastD 0
      let prev_sales := sales_history.dropLast.getLastD 0
      let price_diff := last_price - prev_price
      if price_diff = 0 then 0
      else
        match mt with
        | .units => (last_sales - prev_sales) / price_diff
        | .revenue => (last_sales * last_price - prev_sales * prev_price) / price_diff
  | _, _ => 0

/-- Python's `str.upper()` (ASCII range, which covers the region codes):
each character uppercased.  Stated on the underlying character list so that
concrete instances evaluate. -/
def py_upper (s : String) : String :=
  ⟨s.data.map Char.toUpper⟩

/-- The country calendar chosen by `check_holidays` (utils.py lines 147-148):
the dict `{'US': holidays.US(...), 'RU': holidays.RU(...)}` looked up with
`location.upper()` and default `holidays.RU(...)`. -/
def holiday_calendar (location : String) : String :=
  match py_upper location with
  | "US" => "US"
  | "RU" => "RU"
  | _ => "RU"

/-- Embedding of `check_holidays` (utils.py lines 134-158).  `current_date`
is the outcome of `datetime.strptime(current_date, '%Y-%m-%d')`: `none`
models a parse failure (the resulting exception is caught by the handler at
lines 156-158, which returns `False`); `some t` is the parsed date as an
absolute day number.  The loop checks the 8 consecutive days `t, t+1, ...,
t+7` against the chosen calendar and returns `True` on the first hit. -/
def check_holidays (holiday_oracle : String → Int → Bool) (location : String)
    (current_date : Option Int) : Bool :=
  match current_date with
  | none => false
  | some t => (List.range 8).any (fun i => holiday_oracle (holiday_calendar location) (t + i))

/-- The per-row holiday check of utils.py line 62.  A NaN `Location` cell
makes `location.upper()` raise `AttributeError` inside `check_holidays`'s
`try`, so the row's value is `False`. -/
def is_holiday_cell (env : Env) (loc : Option String) : Bool :=
  match loc with
  | none => false
  | some s => check_holidays env.holiday_oracle s (some env.ref_day)

/-- Return value of `get_ai_recommendation` on a `RequestException`
(utils.py line 229). -/
def errConnection : String := "Ошибка связи с OpenAI API"

/-- Return value of `get_ai_recommendation` when the decoded body has no
usable `choices` (utils.py line 220). -/
def errBadFormat : String := "Ошибка формата ответа от API"

/-- Return value of `get_ai_recommendation` on any other exception
(utils.py line 235). -/
def errUnexpected : String := "Непредвиденная ошибка при генерации рекомендации"

/-- Embedding of `get_ai_recommendation` (utils.py lines 160-235), as a
function of the HTTP call's outcome.  The row argument of the source only
feeds the prompt text and the log lines (I/O, not part of the returned
value); the `api_key` missing branch (lines 172-174) is unreachable because
`process_data` only calls this function when the key is configured.  On
success the raw `choices[0].message.content` is returned; each failure class
yields its fixed error-message string — the function never calls the
rule-based generator. -/
def get_ai_recommendation : LLMResult → String
  | .success content => content
  | .requestError => errConnection
  | .badFormat => errBadFormat
  | .unexpectedError => errUnexpected

/-- The "excess stock" recommendation of `basic_logic` (utils.py line 253). -/
def recExcess : String :=
  "Анализ: Избыточные запасы и высокая чувствительность к цене.\nРекомендация: Скидка 15%.\nЭффект: Ускорение продаж."

/-- The "low stock" recommendation of `basic_logic` (utils.py line 255). -/
def recLowStock : String :=
  "Анализ: Низкие запасы.\nРекомендация: Повысить цену на 10%.\nЭффект: Сохранение запасов."

/-- The "holiday" recommendation of `basic_logic` (utils.py line 257). -/
def recHoliday : String :=
  "Анализ: Приближается праздник.\nРекомендация: Скидка 10%.\nЭффект: Рост продаж."

/-- The "stable" recommendation of `basic_logic` (utils.py line 259). -/
def recStable : String :=
  "Анализ: Стабильная ситуация.\nРекомендация: Сохранить цену.\nЭффект: Стабильность."

/-- Embedding of `basic_logic` (utils.py lines 247-259): the first-match
`if/elif/elif/else` chain over `Stock_Runway`, `PS_units`,
`Is_Holiday_Period`. -/
def basic_logic (stock_runway ps_units : ℚ) (is_holiday : Bool) : String :=
  if stock_runway > 60 ∧ ps_units < -(1/10) then recExcess
  else if stock_runway < 15 then recLowStock
  else if is_holiday then recHoliday
  else recStable

/-- Embedding of `generate_basic_recommendation` (utils.py lines 237-261):
`basic_logic` applied to every (enriched) row. -/
def generate_basic_recommendation (rows : List ERow) : List String :=
  rows.map (fun row => basic_logic row.Stock_Runway row.PS_units row.Is_Holiday_Period)

/-- The required columns checked at utils.py line 27. -/
def required_cols : List String :=
  ["Product", "Current_Price", "Cost", "Current_Stock", "Sales_30d"]

/-- The collected list of absent required columns (utils.py line 28). -/
def missingCols (t : Table) : List String :=
  required_cols.filter (fun c => ¬ c ∈ t.cols)

/-- The `Price_History` cell seen by line 33: the row's cell when the column
is present, otherwise the `None` of the default series
`pd.Series([None] * len(df))`. -/
def phCell (t : Table) (r : Row) : HistCell :=
  if "Price_History" ∈ t.cols then r.Price_History else .null

/-- The `Sales_History` cell seen by line 36. -/
def shCell (t : Table) (r : Row) : HistCell :=
  if "Sales_History" ∈ t.cols then r.Sales_History else .null

/-- The `Competitor_Price` cell seen by line 47: the row's cell when the
column is present, otherwise `None` from the default series. -/
def cpCell (t : Table) (r : Row) : Option ℚ :=
  if "Competitor_Price" ∈ t.cols then r.Competitor_Price else none

/-- The `Past_Period_Sales` cell seen by line 56: the row's cell when the
column is present, otherwise the row's `Sales_30d` (the default of
`df.get('Past_Period_Sales', df['Sales_30d'])` is a full series, so each row
falls back to its own current sales, never to a NaN). -/
def ppsCell (t : Table) (r : Row) : Option ℚ :=
  if "Past_Period_Sales" ∈ t.cols then r.Past_Period_Sales else some r.Sales_30d

/-- The `Sales_Velocity` computation of utils.py lines 40-41:
`Sales_30d / 30`, with a cell exactly equal to `0` replaced by `0.01`
(`.replace(0, 0.01)`).  No rounding is applied anywhere in the source. -/
def sales_velocity (s : ℚ) : ℚ :=
  if s / 30 = 0 then 1/100 else s / 30

/-- The per-cell result of the `Competitor_Gap` lambda at utils.py lines
47-49.  The lambda is applied to each `Competitor_Price` cell `x`, but its
body reads the whole `df['Current_Price']` column, so for a present positive
`x` the produced value is the full series
`(df['Current_Price'] - x) / x * 100` (one entry per row of the table), not
a scalar; for a NaN or non-positive `x` it is the scalar `0`.  The embedding
records the value the lambda computes for each cell; the subsequent pandas
mechanics of assigning such a column (which even raises when every cell is a
series and the table has several rows) are not modelled. -/
def competitor_gap_cell (current_price_col : List ℚ) (x : Option ℚ) : PyVal :=
  match x with
  | some v => if 0 < v then .list (current_price_col.map (fun cp => (cp - v) / v * 100)) else .num 0
  | none => .num 0

/-- The per-cell result of the `Seasonal_Demand_Factor` lambda at utils.py
lines 56-58; like the `Competitor_Gap` lambda it captures the whole
`df['Sales_30d']` column. -/
def seasonal_cell (sales_30d_col : List ℚ) (x : Option ℚ) : PyVal :=
  match x with
  | some v => if 0 < v then .list (sales_30d_col.map (fun s => s / v)) else .num 1
  | none => .num 1

/-- The metric computations of utils.py lines 40-62 for one row, given the
row's post-fallback parsed histories.  `Recommendation` is filled in later
(line 65-68), so it is the empty string here. -/
def enrich (env : Env) (t : Table) (r : Row) (ph sh : PyVal) : ERow :=
  let vel := sales_velocity r.Sales_30d
  { Product := r.Product
    Current_Price := r.Current_Price
    Cost := r.Cost
    Current_Stock := r.Current_Stock
    Sales_30d := r.Sales_30d
    Competitor_Price := cpCell t r
    Location := r.Location
    Price_History := ph
    Sales_History := sh
    Sales_Velocity := vel
    Stock_Runway := r.Current_Stock / vel
    Discount_Margin := (r.Current_Price - r.Cost) / r.Current_Price * 100
    Competitor_Gap := competitor_gap_cell (t.rows.map (fun q => q.Current_Price)) (cpCell t r)
    PS_units := calculate_price_sensitivity .units ph sh
    PS_revenue := calculate_price_sensitivity .revenue ph sh
    Seasonal_Demand_Factor := seasonal_cell (t.rows.map (fun q => q.Sales_30d)) (ppsCell t r)
    Is_Holiday_Period := is_holiday_cell env r.Location
    Recommendation := "" }

/-- Assignment of the `Recommendation` column (utils.py lines 65-68). -/
def setRec (e : ERow) (s : String) : ERow :=
  { e with Recommendation := s }

/-- Short-circuiting element-wise map, the behaviour of `Series.apply` with a
raising function: cells are processed in order and the first raised
exception aborts the whole column. -/
def mapEx (f : α → Except ε β) : List α → Except ε (List β)
  | [] => .ok []
  | a :: l =>
    match f a with
    | .error e => .error e
    | .ok b =>
      match mapEx f l with
      | .error e => .error e
      | .ok bs => .ok (b :: bs)

/-- Embedding of `process_data` (utils.py lines 13-74).  In order: the
missing-required-columns check (lines 27-30, collecting *all* absent
columns); parsing of the `Price_History` column then the `Sales_History`
column with the per-row truthiness fallback (lines 33-37); the metric
columns (lines 40-58, pure — no exceptions); the holiday column (line 62),
which raises `AttributeError` when the `Location` column is absent because
`df.get('Location', 'RU')` then returns a bare string; and the
recommendation column (lines 65-68), chosen once per run from the presence
of the API key.  Any exception is logged and re-raised unchanged by the
handler at lines 72-74. -/
def process_data (env : Env) (t : Table) : Except PipeErr ETable :=
  let missing := missingCols t
  if missing = [] then
    match mapEx (fun r => parse_history (phCell t r)) t.rows with
    | .error e => .error e
    | .ok phsRaw =>
      match mapEx (fun r => parse_history (shCell t r)) t.rows with
      | .error e => .error e
      | .ok shsRaw =>
        let phs := (t.rows.zip phsRaw).map (fun x => history_or_default x.2 x.1.Current_Price)
        let shs := (t.rows.zip shsRaw).map (fun x => history_or_default x.2 x.1.Sales_30d)
        if "Location" ∈ t.cols then
          let base := (t.rows.zip (phs.zip shs)).map (fun x => enrich env t x.1 x.2.1 x.2.2)
          let recs :=
            if env.api_key_present then
              (List.range base.length).map (fun i => get_ai_recommendation (env.llm_outcome i))
            else generate_basic_recommendation base
          .ok ⟨(base.zip recs).map (fun x => setRec x.1 x.2)⟩
        else .error .locationAttr
  else .error (.missingColumns missing)

/-- The enriched row `process_data` produces at index `i` from input row `r`
(closed form, established by `process_data_ok_spec` below). -/
def mkSuccessRow (env : Env) (t : Table) (i : Nat) (r : Row) : ERow :=
  let ph := history_or_default (parseValTotal (phCell t r)) r.Current_Price
  let sh := history_or_default (parseValTotal (shCell t r)) r.Sales_30d
  let e := enrich env t r ph sh
  setRec e
    (if env.api_key_present then get_ai_recommendation (env.llm_outcome i)
     else basic_logic e.Stock_Runway e.PS_units e.Is_Holiday_Period)

/-- Model of the call `process_data(data)` including the caller's view of its
argument.  The first source line of the body (utils.py line 24) is
`df = data.copy()`, after which every write of the function (lines 33-68)
targets `df`; `data` itself is never assigned to or mutated, so the pair
returned here carries the argument's (unchanged) value after the call
alongside the result. -/
def process_data_program (env : Env) (data : Table) : Table × Except PipeErr ETable :=
  let df := data
  (data, process_data env df)

/-- Rounding to `places` decimal places as the spec's formulas prescribe
("rounded to N places").  This definition follows the spec's words, for
comparison with the source, which applies no rounding at all. -/
def spec_round (places : Nat) (q : ℚ) : ℚ :=
  ((round (q * 10 ^ places) : ℤ) : ℚ) / 10 ^ places

/-- Whether a parsed history value is a sequence (a Python list). -/
def PyVal.isSeq : PyVal → Bool
  | .list _ => true
  | .num _ => false

/-- Concrete run environment: no holiday in any calendar, no API key
configured (rule-based recommendations). -/
def envRB : Env :=
  { holiday_oracle := fun _ _ => false
    ref_day := 0
    api_key_present := false
    llm_outcome := fun _ => .requestError }

/-- Concrete run environment: API key configured, and every OpenAI call
fails with a `RequestException` (e.g. a timeout). -/
def envAI : Env :=
  { envRB with api_key_present := true }

/-- All columns of the data model, present. -/
def allCols : List String :=
  ["Product", "Current_Price", "Cost", "Current_Stock", "Sales_30d",
   "Competitor_Price", "Price_History", "Sales_History", "Past_Period_Sales", "Location"]

/-- A plain concrete row used by the concrete runs below. -/
def baseRow : Row :=
  { Product := "A"
    Current_Price := 100
    Cost := 50
    Current_Stock := 500
    Sales_30d := 30
    Competitor_Price := none
    Price_History := .null
    Sales_History := .null
    Past_Period_Sales := none
    Location := some "RU" }

/-- One-row table whose `Sales_30d` is `1`, so `Sales_Velocity` is `1/30`. -/
def tVel : Table := { cols := allCols, rows := [{ baseRow with Sales_30d := 1 }] }

/-- One-row table with `Sales_30d = 30`. -/
def tPlain : Table := { cols := allCols, rows := [baseRow] }

/-- Two-row table: the first row has no competitor price, the second has
competitor price `100` with current prices `100` and `200` in the table. -/
def tGap : Table :=
  { cols := allCols
    rows := [baseRow,
             { baseRow with Product := "B", Current_Price := 200, Competitor_Price := some 100 }] }

/-- A row whose histories are the native lists `[10, 12]` and `[100, 80]`
and whose stock level yields `Stock_Runway = 100`. -/
def histRow : Row :=
  { baseRow with
      Current_Stock := 100
      Price_History := .pyList [10, 12]
      Sales_History := .pyList [100, 80] }

def tHist : Table := { cols := allCols, rows := [histRow] }

/-- One-row table whose upload lacks the `Cost` column. -/
def tNoCost : Table :=
  { cols := ["Product", "Current_Price", "Current_Stock", "Sales_30d", "Location"]
    rows := [baseRow] }

/-- One-row table whose `Price_History` string cell fails all three parse
stages (e.g. the cell `"abc"`: not JSON, not a Python literal, and
`float("abc")` raises). -/
def tBadHist : Table := { cols := allCols, rows := [{ baseRow with Price_History := .strFail }] }

/-- One-row table whose `Sales_History` string cell fails all three parse
stages. -/
def tBadSalesHist : Table :=
  { cols := allCols, rows := [{ baseRow with Sales_History := .strFail }] }

/-- One-row table whose `Price_History` cell is the string `"5"`:
`json.loads` succeeds and returns the bare number `5`. -/
def tScalarHist : Table :=
  { cols := allCols, rows := [{ baseRow with Price_History := .strJson (.num 5) }] }

/-- A concrete holiday calendar oracle: day 5 is a holiday of the RU
calendar, nothing else. -/
def calW : String → Int → Bool := fun c n => decide (c = "RU" ∧ n = 5)

theorem parse_history_ok {c : HistCell} {v : PyVal} (h : parse_history c = .ok v) :
    v = parseValTotal c := by
  cases c <;> simp_all [parse_history, parseValTotal]

theorem parse_history_ne_fail {c : HistCell} (h : c ≠ .strFail) :
    parse_history c = .ok (parseValTotal c) := by
  cases c <;> simp_all [parse_history, parseValTotal]

theorem parse_history_cases (c : HistCell) :
    parse_history c = .error .historyParse ∨ ∃ v, parse_history c = .ok v := by
  cases c <;> simp [parse_history]

theorem mapEx_ok_eq_map {α β ε : Type} {f : α → Except ε β} {g : α → β}
    (hg : ∀ a b, f a = .ok b → b = g a) :
    ∀ {l : List α} {bs : List β}, mapEx f l = .ok bs → bs = l.map g := by
  intro l
  induction l with
  | nil => intro bs h; simp [mapEx] at h; simp [h.symm]
  | cons a l ih =>
    intro bs h
    cases hfa : f a with
    | error e => simp [mapEx, hfa] at h
    | ok b =>
      cases hml : mapEx f l with
      | error e => simp [mapEx, hfa, hml] at h
      | ok bs2 =>
        simp [mapEx, hfa, hml] at h
        simp [h.symm, hg a b hfa, ih hml]

theorem mapEx_ok_forall {α β ε : Type} {f : α → Except ε β} :
    ∀ {l : List α} {bs : List β}, mapEx f l = .ok bs → ∀ a ∈ l, ∃ b, f a = .ok b := by
  intro l
  induction l with
  | nil => simp
  | cons a l ih =>
    intro bs h x hx
    cases hfa : f a with
    | error e => simp [mapEx, hfa] at h
    | ok b =>
      cases hml : mapEx f l with
      | error e => simp [mapEx, hfa, hml] at h
      | ok bs2 =>
        rcases List.mem_cons.mp hx with hx | hx
        · exact ⟨b, hx ▸ hfa⟩
        · exact ih hml x hx

theorem mapEx_error_of_exists {α β ε : Type} {f : α → Except ε β} {e : ε}
    (hall : ∀ a, f a = .error e ∨ ∃ b, f a = .ok b) :
    ∀ {l : List α}, (∃ a ∈ l, f a = .error e) → mapEx f l = .error e := by
  intro l
  induction l with
  | nil => simp
  | cons a l ih =>
    intro hex
    cases hfa : f a with
    | error e2 =>
      rcases hex with ⟨x, hx, hfx⟩
      have : e2 = e := by
        rcases hall a with h1 | ⟨b, h1⟩
        · rw [hfa] at h1; exact (Except.error.injEq _ _).mp h1
        · rw [hfa] at h1; simp at h1
      simp [mapEx, hfa, this]
    | ok b =>
      rcases hex with ⟨x, hx, hfx⟩
      rcases List.mem_cons.mp hx with hx | hx
      · rw [hx] at hfx; rw [hfx] at hfa; simp at hfa
      · have hml := ih ⟨x, hx, hfx⟩
        simp [mapEx, hfa, hml]

theorem mapEx_ok_of_forall {α β ε : Type} {f : α → Except ε β} :
    ∀ {l : List α}, (∀ a ∈ l, ∃ b, f a = .ok b) → ∃ bs, mapEx f l = .ok bs := by
  intro l
  induction l with
  | nil => intro _; exact ⟨[], rfl⟩
  | cons a l ih =>
    intro h
    rcases h a (List.mem_cons_self a l) with ⟨b, hb⟩
    rcases ih (fun x hx => h x (List.mem_cons_of_mem a hx)) with ⟨bs, hbs⟩
    exact ⟨b :: bs, by simp [mapEx, hb, hbs]⟩

theorem zip_map_self {α β γ : Type} (l : List α) (g : α → β) (f : α → β → γ) :
    (l.zip (l.map g)).map (fun x => f x.1 x.2) = l.map (fun a => f a (g a)) := by
  induction l with
  | nil => rfl
  | cons a l ih => simp [ih]

theorem map_zip_map_self {α β γ : Type} (l : List α) (g₁ : α → β) (g₂ : α → γ) :
    (l.map g₁).zip (l.map g₂) = l.map (fun a => (g₁ a, g₂ a)) := by
  induction l with
  | nil => rfl
  | cons a l ih => simp [ih]

theorem getElemQ_zip {α β : Type} :
    ∀ (l₁ : List α) (l₂ : List β) (i : Nat),
      (l₁.zip l₂)[i]? = (l₁[i]?).bind (fun a => (l₂[i]?).map (fun b => (a, b))) := by
  intro l₁
  induction l₁ with
  | nil => intro l₂ i; simp
  | cons a l₁ ih =>
    intro l₂ i
    cases l₂ with
    | nil => simp
    | cons b l₂ =>
      cases i with
      | zero => simp
      | succ j => simp [ih l₂ j]

theorem process_data_ok_spec {env : Env} {t : Table} {out : ETable}
    (h : process_data env t = .ok out) :
    missingCols t = [] ∧ "Location" ∈ t.cols ∧
    (∀ r ∈ t.rows, phCell t r ≠ .strFail ∧ shCell t r ≠ .strFail) ∧
    out.rows.length = t.rows.length ∧
    (∀ i : Nat, out.rows[i]? = (t.rows[i]?).map (mkSuccessRow env t i)) := by
  unfold process_data at h
  by_cases hmc : missingCols t = []
  case neg => simp [hmc] at h
  simp only [hmc, if_true] at h
  cases hph : mapEx (fun r => parse_history (phCell t r)) t.rows with
  | error e => rw [hph] at h; simp at h
  | ok phsRaw =>
  rw [hph] at h
  cases hsh : mapEx (fun r => parse_history (shCell t r)) t.rows with
  | error e => rw [hsh] at h; simp at h
  | ok shsRaw =>
  rw [hsh] at h
  by_cases hloc : "Location" ∈ t.cols
  case neg => simp [hloc] at h
  simp only [hloc, if_true] at h
  have hphv : phsRaw = t.rows.map (fun r => parseValTotal (phCell t r)) :=
    mapEx_ok_eq_map (fun a b hb => parse_history_ok hb) hph
  have hshv : shsRaw = t.rows.map (fun r => parseValTotal (shCell t r)) :=
    mapEx_ok_eq_map (fun a b hb => parse_history_ok hb) hsh
  have hnofail : ∀ r ∈ t.rows, phCell t r ≠ .strFail ∧ shCell t r ≠ .strFail := by
    intro r hr
    constructor
    · intro hc
      rcases mapEx_ok_forall hph r hr with ⟨b, hb⟩
      rw [hc] at hb; simp [parse_history] at hb
    · intro hc
      rcases mapEx_ok_forall hsh r hr with ⟨b, hb⟩
      rw [hc] at hb; simp [parse_history] at hb
  subst hphv hshv
  have hout := (Except.ok.injEq _ _).mp h
  subst hout
  refine ⟨hmc, hloc, hnofail, ?_, ?_⟩
  · cases hkey : env.api_key_present <;>
      simp [hkey, List.length_map, List.length_zip, List.length_range,
        generate_basic_recommendation]
  · intro i
    by_cases hi : i < t.rows.length
    case neg =>
      have hnone : t.rows[i]? = none := List.getElem?_eq_none (by omega)
      cases hkey : env.api_key_present <;>
        simp [hkey, hnone, getElemQ_zip, List.getElem?_map, generate_basic_recommendation,
          List.getElem?_eq_none, List.length_map, List.length_zip, List.length_range, hi]
    case pos =>
      have hsome : t.rows[i]? = some (t.rows[i]) := List.getElem?_eq_getElem hi
      cases hkey : env.api_key_present with
      | false =>
        simp [hkey, hsome, getElemQ_zip, List.getElem?_map, generate_basic_recommendation,
          mkSuccessRow]
      | true =>
        have hrange : (List.range t.rows.length)[i]? = some i := List.getElem?_range hi
        simp [hkey, hsome, getElemQ_zip, List.getElem?_map, List.length_map, List.length_zip,
          Nat.min_self, hrange, mkSuccessRow]


theorem process_data_ok_of_conditions (env : Env) (t : Table)
    (h1 : missingCols t = []) (h2 : "Location" ∈ t.cols)
    (h3 : ∀ r ∈ t.rows, phCell t r ≠ .strFail ∧ shCell t r ≠ .strFail) :
    ∃ out, process_data env t = .ok out := by
  unfold process_data
  simp only [h1, if_true]
  rcases mapEx_ok_of_forall
      (fun a ha => ⟨parseValTotal (phCell t a), parse_history_ne_fail (h3 a ha).1⟩) with ⟨phs, hph⟩
  rcases mapEx_ok_of_forall
      (fun a ha => ⟨parseValTotal (shCell t a), parse_history_ne_fail (h3 a ha).2⟩) with ⟨shs, hsh⟩
  rw [hph, hsh]
  simp [h2]

theorem process_data_err_historyParse (env : Env) (t : Table)
    (h1 : missingCols t = [])
    (hex : ∃ r ∈ t.rows, phCell t r = .strFail ∨ shCell t r = .strFail) :
    process_data env t = .error .historyParse := by
  unfold process_data
  simp only [h1, if_true]
  by_cases hp : ∃ r ∈ t.rows, phCell t r = .strFail
  · have herr : mapEx (fun r => parse_history (phCell t r)) t.rows = .error .historyParse := by
      apply mapEx_error_of_exists (fun a => parse_history_cases (phCell t a))
      rcases hp with ⟨r, hr, hc⟩
      exact ⟨r, hr, by rw [hc]; rfl⟩
    rw [herr]
  · have hallok : ∀ a ∈ t.rows, ∃ b, parse_history (phCell t a) = .ok b := by
      intro a ha
      refine ⟨parseValTotal (phCell t a), parse_history_ne_fail ?_⟩
      intro hc
      exact hp ⟨a, ha, hc⟩
    rcases mapEx_ok_of_forall hallok with ⟨phs, hph⟩
    rw [hph]
    have hs : ∃ r ∈ t.rows, shCell t r = .strFail := by
      rcases hex with ⟨r, hr, hc | hc⟩
      · exact absurd ⟨r, hr, hc⟩ hp
      · exact ⟨r, hr, hc⟩
    have herr : mapEx (fun r => parse_history (shCell t r)) t.rows = .error .historyParse := by
      apply mapEx_error_of_exists (fun a => parse_history_cases (shCell t a))
      rcases hs with ⟨r, hr, hc⟩
      exact ⟨r, hr, by rw [hc]; rfl⟩
    rw [herr]

theorem process_data_err_missing (env : Env) (t : Table) (h : missingCols t ≠ []) :
    process_data env t = .error (.missingColumns (missingCols t)) := by
  unfold process_data
  simp [h]


/-- C4: the rule-based recommendation is the deterministic first-match
decision tree over `Stock_Runway`, `PS_units`, `Is_Holiday_Period` in the
stated priority order; in particular `Stock_Runway = 80, PS_units = -0.2`
selects the excess-stock branch and `Stock_Runway = 10` the low-stock
branch regardless of the remaining fields. -/
theorem C4_basic_logic_tree (sr ps : ℚ) (hol : Bool) :
    (sr > 60 → ps < -(1/10) → basic_logic sr ps hol = recExcess) ∧
    (¬(sr > 60 ∧ ps < -(1/10)) → sr < 15 → basic_logic sr ps hol = recLowStock) ∧
    (¬(sr > 60 ∧ ps < -(1/10)) → ¬(sr < 15) → hol = true → basic_logic sr ps hol = recHoliday) ∧
    (¬(sr > 60 ∧ ps < -(1/10)) → ¬(sr < 15) → hol = false → basic_logic sr ps hol = recStable) ∧
    basic_logic 80 (-(2/10)) hol = recExcess ∧
    basic_logic 10 ps hol = recLowStock := by
  refine ⟨?_, ?_, ?_, ?_, ?_, ?_⟩
  · intro h1 h2; rw [basic_logic, if_pos ⟨h1, h2⟩]
  · intro hn h15; rw [basic_logic, if_neg hn, if_pos h15]
  · intro hn h15 hh; rw [basic_logic, if_neg hn, if_neg h15, if_pos hh]
  · intro hn h15 hh; rw [basic_logic, if_neg hn, if_neg h15, if_neg (by simp [hh])]
  · rw [basic_logic, if_pos (by norm_num)]
  · rw [basic_logic, if_neg (by norm_num), if_pos (by norm_num)]

/-- C4 witness: concrete applications of the decision-tree theorem. -/
theorem C4_basic_logic_tree_witness :
    basic_logic 100 (-1) false = recExcess ∧ basic_logic 70 0 true = recHoliday := by
  constructor
  · exact (C4_basic_logic_tree 100 (-1) false).1 (by norm_num) (by norm_num)
  · exact (C4_basic_logic_tree 70 0 true).2.2.1 (by norm_num) (by norm_num) rfl

/-- C5: a table missing required columns makes `process_data` fail, before
any row processing, with the error carrying the collected list of all
absent required columns. -/
theorem C5_missing_columns (env : Env) (t : Table) (h : missingCols t ≠ []) :
    process_data env t = .error (.missingColumns (missingCols t)) ∧
    ∀ c : String, c ∈ missingCols t ↔ (c ∈ required_cols ∧ ¬ c ∈ t.cols) := by
  refine ⟨process_data_err_missing env t h, ?_⟩
  intro c
  simp [missingCols, List.mem_filter]

/-- C5 witness: a table missing only `Cost` fails naming exactly `Cost`. -/
theorem C5_missing_columns_witness :
    missingCols tNoCost = ["Cost"] ∧
    process_data envRB tNoCost = .error (.missingColumns ["Cost"]) := by
  have h1 : missingCols tNoCost = ["Cost"] := by decide
  refine ⟨h1, ?_⟩
  have h2 := (C5_missing_columns envRB tNoCost (by rw [h1]; simp)).1
  rw [h1] at h2
  exact h2

/-- C8: `PS_units` is `0` with fewer than two history points on either side,
`0` when the last two prices are equal, and otherwise the unit slope of the
two most recent points; in particular histories `[10,12]` / `[100,80]` give
`-10`. -/
theorem C8_ps_units (p s : List ℚ) :
    (p.length < 2 ∨ s.length < 2 → calculate_price_sensitivity .units (.list p) (.list s) = 0) ∧
    (2 ≤ p.length → 2 ≤ s.length → p.getLastD 0 = p.dropLast.getLastD 0 →
      calculate_price_sensitivity .units (.list p) (.list s) = 0) ∧
    (2 ≤ p.length → 2 ≤ s.length → p.getLastD 0 ≠ p.dropLast.getLastD 0 →
      calculate_price_sensitivity .units (.list p) (.list s)
        = (s.getLastD 0 - s.dropLast.getLastD 0) / (p.getLastD 0 - p.dropLast.getLastD 0)) ∧
    calculate_price_sensitivity .units (.list [10, 12]) (.list [100, 80]) = -10 := by
  refine ⟨?_, ?_, ?_, ?_⟩
  · intro h
    rw [calculate_price_sensitivity, if_pos h]
  · intro h1 h2 he
    rw [calculate_price_sensitivity, if_neg (by omega)]
    simp only []
    rw [if_pos (by rw [sub_eq_zero]; exact he)]
  · intro h1 h2 hne
    rw [calculate_price_sensitivity, if_neg (by omega)]
    simp only []
    rw [if_neg (by rw [sub_eq_zero]; exact hne)]
  · norm_num [calculate_price_sensitivity]

/-- C8 witness: concrete applications of the `PS_units` theorem. -/
theorem C8_ps_units_witness :
    calculate_price_sensitivity .units (.list [10, 12]) (.list [100, 80]) = -10 ∧
    calculate_price_sensitivity .units (.list [10]) (.list [100, 80]) = 0 := by
  refine ⟨(C8_ps_units [10, 12] [100, 80]).2.2.2, (C8_ps_units [10] [100, 80]).1 (by norm_num)⟩

/-- C10: `process_data` works on a copy (`df = data.copy()`, utils.py line
24) and never writes its argument, so the caller's table after the call
equals its value before the call. -/
theorem C10_input_unchanged (env : Env) (data : Table) :
    (process_data_program env data).1 = data := rfl


/-- C9: the holiday lookup is invariant under the case of the region code
(it is normalized to uppercase), falls back to the default region RU for
unrecognized codes, returns true iff one of the 8 consecutive days starting
at the reference date is a listed holiday of the chosen calendar, and
returns false when the date lookup failed. -/
theorem C9_check_holidays (cal : String → Int → Bool) (loc loc2 : String)
    (d : Option Int) (t : Int) :
    (py_upper loc2 = py_upper loc → check_holidays cal loc2 d = check_holidays cal loc d) ∧
    (py_upper loc ≠ "US" → py_upper loc ≠ "RU" → holiday_calendar loc = "RU") ∧
    (d = some t → (check_holidays cal loc d = true ↔
      ∃ i : Nat, i < 8 ∧ cal (holiday_calendar loc) (t + i) = true)) ∧
    (check_holidays cal loc none = false) := by
  refine ⟨?_, ?_, ?_, rfl⟩
  · intro h
    cases d <;> simp [check_holidays, holiday_calendar, h]
  · intro h1 h2
    unfold holiday_calendar
    split <;> simp_all
  · intro hd
    subst hd
    simp [check_holidays, List.any_eq_true, List.mem_range]

/-- C9 witness: with a calendar whose only RU holiday is day 5, the
unrecognized code `"xy"` falls back to the RU calendar and a reference day
of 3 hits day 5 inside the 8-day window. -/
theorem C9_check_holidays_witness :
    check_holidays calW "xy" (some 3) = true ∧ holiday_calendar "xy" = "RU" := by
  have h := C9_check_holidays calW "xy" "XY" (some 3) 3
  refine ⟨?_, h.2.1 (by decide) (by decide)⟩
  exact (h.2.2.1 rfl).mpr ⟨2, by norm_num, by decide⟩

theorem run_tPlain : process_data envRB tPlain = .ok ⟨[mkSuccessRow envRB tPlain 0 baseRow]⟩ := rfl
theorem run_tHist : process_data envAI tHist = .ok ⟨[mkSuccessRow envAI tHist 0 histRow]⟩ := rfl

theorem history_or_default_list_len (p : PyVal) (d : ℚ) :
    ∀ l : List ℚ, history_or_default p d = .list l → 1 ≤ l.length := by
  intro l h
  unfold history_or_default at h
  by_cases ht : pyTruthy p = true
  · rw [if_pos ht] at h
    subst h
    simp [pyTruthy] at ht
    cases l with
    | nil => simp at ht
    | cons a l => simp
  · rw [if_neg ht] at h
    cases h
    simp

/-- C1 counterexample: with `Sales_30d = 1` the enriched `Sales_Velocity`
is exactly `1/30`, which is not equal to its own rounding to 2 decimal
places, so the claimed rounding step does not happen. -/
theorem C1_no_rounding_counterexample :
    (process_data envRB tVel).toOption.map (fun o => o.rows.map (fun e => e.Sales_Velocity))
      = some [1/30] ∧
    spec_round 2 (1/30) ≠ (1/30 : ℚ) := by
  constructor
  · simp [process_data, mapEx, parse_history, phCell, shCell, cpCell, ppsCell, missingCols,
      required_cols, allCols, history_or_default, pyTruthy, enrich, setRec,
      generate_basic_recommendation, basic_logic, sales_velocity, calculate_price_sensitivity,
      competitor_gap_cell, seasonal_cell, is_holiday_cell, check_holidays, holiday_calendar,
      get_ai_recommendation, envRB, envAI, tVel, baseRow, Except.toOption]
  · unfold spec_round
    norm_num [round_eq]

/-- C1 (amended): the enriched `Sales_Velocity` is `Sales_30d / 30` with an
exact zero remapped to `0.01` and no rounding, and it is strictly positive
whenever `Sales_30d ≥ 0`. -/
theorem C1_sales_velocity (env : Env) (t : Table) (out : ETable) (i : Nat) (r : Row) (er : ERow)
    (hok : process_data env t = .ok out) (hr : t.rows[i]? = some r)
    (her : out.rows[i]? = some er) :
    er.Sales_Velocity = (if r.Sales_30d / 30 = 0 then 1/100 else r.Sales_30d / 30) ∧
    (0 ≤ r.Sales_30d → 0 < er.Sales_Velocity) := by
  obtain ⟨-, -, -, -, hrow⟩ := process_data_ok_spec hok
  have h := hrow i
  rw [hr, her] at h
  simp only [Option.map_some', Option.some.injEq] at h
  subst h
  have hv : (mkSuccessRow env t i r).Sales_Velocity
      = (if r.Sales_30d / 30 = 0 then 1/100 else r.Sales_30d / 30) := by
    simp [mkSuccessRow, setRec, enrich, sales_velocity]
  refine ⟨hv, ?_⟩
  intro hs
  rw [hv]
  by_cases hz : r.Sales_30d / 30 = 0
  · rw [if_pos hz]; norm_num
  · rw [if_neg hz]
    have h0 : 0 ≤ r.Sales_30d / 30 := div_nonneg hs (by norm_num)
    exact lt_of_le_of_ne h0 (Ne.symm hz)

/-- C1 witness: the run on `tPlain` (with `Sales_30d = 30`) yields velocity
`1 > 0`. -/
theorem C1_sales_velocity_witness :
    (mkSuccessRow envRB tPlain 0 baseRow).Sales_Velocity = 1 ∧
    0 < (mkSuccessRow envRB tPlain 0 baseRow).Sales_Velocity := by
  have h := C1_sales_velocity envRB tPlain ⟨[mkSuccessRow envRB tPlain 0 baseRow]⟩ 0 baseRow
    (mkSuccessRow envRB tPlain 0 baseRow) run_tPlain rfl rfl
  constructor
  · rw [h.1]
    norm_num [baseRow]
  · exact h.2 (by norm_num [baseRow])

/-- C2: on the two-row table `tGap` the second row's `Competitor_Gap` cell is
the whole-column series `[0, 100]` produced by the lambda's capture of
`df['Current_Price']`, not the scalar `100.0` (the claim's rounded per-row
formula value). -/
theorem C2_competitor_gap_series :
    (process_data envRB tGap).toOption.map (fun o => o.rows.map (fun e => e.Competitor_Gap))
      = some [.num 0, .list [0, 100]] ∧
    PyVal.list [0, 100] ≠ PyVal.num (spec_round 1 (((200 - 100) / 100) * 100)) := by
  constructor
  · simp [process_data, mapEx, parse_history, phCell, shCell, cpCell, ppsCell, missingCols,
      required_cols, allCols, history_or_default, pyTruthy, enrich, setRec,
      generate_basic_recommendation, basic_logic, sales_velocity, calculate_price_sensitivity,
      competitor_gap_cell, seasonal_cell, is_holiday_cell, check_holidays, holiday_calendar,
      get_ai_recommendation, envRB, envAI, tGap, baseRow, Except.toOption]
    norm_num
  · simp

/-- C6 counterexample: a history cell failing all three parse stages makes
the whole pipeline run fail with the propagated parse error — it does
surface to the caller and no enriched table is returned. -/
theorem C6_parse_failure_surfaces_counterexample :
    process_data envRB tBadHist = .error .historyParse := rfl

/-- C6 (amended): whenever the required columns are present and some row's
history cell fails all three parse stages, `process_data` aborts the whole
batch with the propagated parse error. -/
theorem C6_parse_failure_aborts (env : Env) (t : Table)
    (hmc : missingCols t = [])
    (hex : ∃ r ∈ t.rows, phCell t r = .strFail ∨ shCell t r = .strFail) :
    process_data env t = .error .historyParse :=
  process_data_err_historyParse env t hmc hex

/-- C6 witness: a failing `Sales_History` cell aborts the run. -/
theorem C6_parse_failure_aborts_witness :
    process_data envRB tBadSalesHist = .error .historyParse := by
  refine C6_parse_failure_aborts envRB tBadSalesHist (by decide) ?_
  refine ⟨{ baseRow with Sales_History := .strFail }, ?_, Or.inr rfl⟩
  simp [tBadSalesHist]

/-- C7 counterexample: the history cell `"5"` parses (via `json.loads`) to
the bare number `5`, which is truthy and therefore kept: the enriched
`Price_History` is not a sequence at all, refuting the claim that every
row's history is a sequence of length at least 1. -/
theorem C7_scalar_history_counterexample :
    (process_data envRB tScalarHist).toOption.map (fun o => o.rows.map (fun e => e.Price_History))
      = some [PyVal.num 5] ∧
    (PyVal.num 5).isSeq = false := by
  constructor
  · simp [process_data, mapEx, parse_history, parseValTotal, phCell, shCell, cpCell, ppsCell,
      missingCols, required_cols, allCols, history_or_default, pyTruthy, enrich, setRec,
      generate_basic_recommendation, basic_logic, sales_velocity, calculate_price_sensitivity,
      competitor_gap_cell, seasonal_cell, is_holiday_cell, check_holidays, holiday_calendar,
      get_ai_recommendation, envRB, envAI, tScalarHist, baseRow, Except.toOption]
  · rfl

/-- C7 (amended): in every successful run each enriched row's history equals
the parsed value with the truthiness fallback applied; whenever that value
is a sequence it has length at least 1, and a history parsed as the empty
sequence (absent or null cell) becomes the singleton `[Current_Price]`
(resp. `[Sales_30d]`). -/
theorem C7_history_fallback (env : Env) (t : Table) (out : ETable) (i : Nat) (r : Row) (er : ERow)
    (hok : process_data env t = .ok out) (hr : t.rows[i]? = some r)
    (her : out.rows[i]? = some er) :
    (er.Price_History = history_or_default (parseValTotal (phCell t r)) r.Current_Price) ∧
    (er.Sales_History = history_or_default (parseValTotal (shCell t r)) r.Sales_30d) ∧
    (∀ l : List ℚ, er.Price_History = .list l → 1 ≤ l.length) ∧
    (∀ l : List ℚ, er.Sales_History = .list l → 1 ≤ l.length) ∧
    (parseValTotal (phCell t r) = .list [] → er.Price_History = .list [r.Current_Price]) ∧
    (parseValTotal (shCell t r) = .list [] → er.Sales_History = .list [r.Sales_30d]) := by
  obtain ⟨-, -, -, -, hrow⟩ := process_data_ok_spec hok
  have h := hrow i
  rw [hr, her] at h
  simp only [Option.map_some', Option.some.injEq] at h
  subst h
  have hp : (mkSuccessRow env t i r).Price_History
      = history_or_default (parseValTotal (phCell t r)) r.Current_Price := by
    simp [mkSuccessRow, setRec, enrich]
  have hs : (mkSuccessRow env t i r).Sales_History
      = history_or_default (parseValTotal (shCell t r)) r.Sales_30d := by
    simp [mkSuccessRow, setRec, enrich]
  refine ⟨hp, hs, ?_, ?_, ?_, ?_⟩
  · rw [hp]; exact history_or_default_list_len _ _
  · rw [hs]; exact history_or_default_list_len _ _
  · intro he; rw [hp, he]; rfl
  · intro he; rw [hs, he]; rfl

/-- C7 witness: on `tPlain` both history cells are null, so both enriched
histories are the singleton fallbacks. -/
theorem C7_history_fallback_witness :
    (mkSuccessRow envRB tPlain 0 baseRow).Price_History = PyVal.list [100] ∧
    (mkSuccessRow envRB tPlain 0 baseRow).Sales_History = PyVal.list [30] := by
  have h := C7_history_fallback envRB tPlain ⟨[mkSuccessRow envRB tPlain 0 baseRow]⟩ 0 baseRow
    (mkSuccessRow envRB tPlain 0 baseRow) run_tPlain rfl rfl
  exact ⟨h.2.2.2.2.1 rfl, h.2.2.2.2.2 rfl⟩



/-- C3 counterexample: on a one-row run whose OpenAI call fails with a
`RequestException`, the row's recommendation is the fixed error-message
string, while the rule-based strategy at the same metric values
(`Stock_Runway = 100`, `PS_units = -10`, no holiday) would produce the
excess-stock text — so the LLM failure path does not fall back to the
rule-based result. -/
theorem C3_no_rule_fallback_counterexample :
    (process_data envAI tHist).toOption.map
        (fun o => o.rows.map (fun e => (e.Stock_Runway, e.PS_units, e.Is_Holiday_Period, e.Recommendation)))
      = some [(100, -10, false, errConnection)] ∧
    basic_logic 100 (-10) false = recExcess ∧
    errConnection ≠ recExcess := by
  refine ⟨?_, ?_, ?_⟩
  · simp [process_data, mapEx, parse_history, phCell, shCell, cpCell, ppsCell, missingCols,
      required_cols, allCols, history_or_default, pyTruthy, enrich, setRec,
      generate_basic_recommendation, basic_logic, sales_velocity, calculate_price_sensitivity,
      competitor_gap_cell, seasonal_cell, is_holiday_cell, check_holidays, holiday_calendar,
      get_ai_recommendation, envRB, envAI, tHist, histRow, baseRow, Except.toOption]
    norm_num
  · rw [basic_logic, if_pos (by norm_num)]
  · decide

/-- C3 (amended): when the LLM path is selected and a row's OpenAI call
fails, that row's recommendation is one of the three fixed error-message
strings (never the rule-based text); each row's recommendation depends only
on its own call outcome, so rows whose outcomes are unchanged are
unaffected; and the batch still completes for any list of call outcomes. -/
theorem C3_llm_failure_behavior (env : Env) (t : Table) (out : ETable) (llm2 : Nat → LLMResult)
    (hok : process_data env t = .ok out) (hkey : env.api_key_present = true) :
    (∀ res : LLMResult, res.isFailure = true →
      get_ai_recommendation res = errConnection ∨ get_ai_recommendation res = errBadFormat ∨
      get_ai_recommendation res = errUnexpected) ∧
    (∀ i : Nat, ∀ r : Row, t.rows[i]? = some r →
      out.rows[i]? = some (mkSuccessRow env t i r) ∧
      (mkSuccessRow env t i r).Recommendation = get_ai_recommendation (env.llm_outcome i)) ∧
    (∃ out2 : ETable, process_data { env with llm_outcome := llm2 } t = .ok out2 ∧
      ∀ i : Nat, ∀ r : Row, t.rows[i]? = some r → llm2 i = env.llm_outcome i →
        out2.rows[i]? = out.rows[i]?) := by
  obtain ⟨hmc, hloc, hnofail, hlen, hrow⟩ := process_data_ok_spec hok
  refine ⟨?_, ?_, ?_⟩
  · intro res hres
    cases res <;> simp_all [LLMResult.isFailure, get_ai_recommendation]
  · intro i r hr
    have h := hrow i
    rw [hr] at h
    simp only [Option.map_some'] at h
    refine ⟨h, ?_⟩
    simp [mkSuccessRow, setRec, hkey]
  · rcases process_data_ok_of_conditions { env with llm_outcome := llm2 } t hmc hloc hnofail
      with ⟨out2, hok2⟩
    obtain ⟨-, -, -, -, hrow2⟩ := process_data_ok_spec hok2
    refine ⟨out2, hok2, ?_⟩
    intro i r hr hagree
    rw [hrow2 i, hrow i, hr]
    simp only [Option.map_some', Option.some.injEq]
    simp [mkSuccessRow, setRec, enrich, is_holiday_cell, hagree, hkey]

/-- C3 witness: concrete application of the failure-behaviour theorem to
the failing run on `tHist`. -/
theorem C3_llm_failure_behavior_witness :
    get_ai_recommendation .requestError = errConnection ∨
    get_ai_recommendation .requestError = errBadFormat ∨
    get_ai_recommendation .requestError = errUnexpected := by
  exact (C3_llm_failure_behavior envAI tHist ⟨[mkSuccessRow envAI tHist 0 histRow]⟩
    (fun i => .badFormat) run_tHist rfl).1 .requestError rfl


end PricePromoGenix
